import Mathlib

/-!
Verification of the PyHive `pyhive/schema.py` module: a pyparsing grammar that
reconstructs an Arrow schema from the `INFO  : Returning Hive schema: ` line of
a Hive query log.

The embedding models the pyparsing 3.x combinators actually used by the source
(`Keyword`, `CaselessKeyword`, `one_of(caseless=True, as_keyword=True)`,
`Word`, `Suppress`, `And` via `+`, `Or` via `^` with longest-match selection,
`DelimitedList`, `Forward`, parse actions) as executable functions over a list
of characters and a position.  Python exceptions raised by parse actions
(`NotImplementedError`, `TypeError`, pyarrow `ValueError`) are modelled as a
`fatal` result that propagates; a pyparsing `ParseException` is the `fail`
result.  `Or` follows pyparsing's two-phase evaluation: every alternative is
first tried with `doActions=False`, the longest grammatical match wins (ties go
to the earlier alternative), and the winner alone is re-parsed with the
incoming `doActions` flag, so parse actions run only on the committed branch.
-/

namespace PyHive

mutual

/-- Arrow data types constructible by `a_type` in the source: the values of the
`m_basic` table (`pa.int8() .. pa.date32()`), `pa.decimal128`, `pa.list_` and
`pa.struct`.  `pa.timestamp('ns')` keeps its unit string; `pa.struct` keeps its
ordered field sequence of (name, type) pairs. -/
inductive ArrowType : Type
  | int8 | int16 | int32 | int64
  | float32 | float64
  | boolT
  | stringT
  | binaryT
  | timestamp (unit : String)
  | date32
  | decimal128 (precision scale : Nat)
  | list (elem : ArrowType)
  | struct (fields : ArrowFields)
  deriving Repr, DecidableEq

/-- An ordered sequence of named, typed struct members (the field list handed
to `pa.struct`). -/
inductive ArrowFields : Type
  | nil
  | cons (name : String) (t : ArrowType) (rest : ArrowFields)
  deriving Repr, DecidableEq

end

/-- Build an `ArrowFields` sequence from a list of (name, type) pairs; used
only to write struct values compactly in statements. -/
def fieldsOf : List (String × ArrowType) → ArrowFields
  | [] => ArrowFields.nil
  | (n, t) :: fs => ArrowFields.cons n t (fieldsOf fs)

/-- A token in a pyparsing result list: a raw string (matched keyword, label or
digit run), a built `pyarrow` data type, or a built `pyarrow` field. -/
inductive Tok : Type
  | str (s : String)
  | typ (t : ArrowType)
  | field (name : String) (t : ArrowType)
  deriving Repr, DecidableEq

/-- Python exceptions that can escape the parse: a pyparsing `ParseException`
(grammar-level failure), a `NotImplementedError` raised by `a_type`, a
`TypeError` from calling a pyarrow constructor with the wrong arguments, and a
`ValueError` from pyarrow argument validation. -/
inductive PyErr : Type
  | parseError
  | notImplemented (msg : String)
  | typeError (msg : String)
  | valueError (msg : String)
  deriving Repr, DecidableEq

/-- Result of running a parser element at a position: a grammatical match with
its end position and token list, a recoverable grammar failure
(`ParseException`), or a Python exception raised by a parse action, which
propagates uncaught. -/
inductive PResult : Type
  | ok (pos : Nat) (toks : List Tok)
  | fail
  | fatal (e : PyErr)
  deriving Repr, DecidableEq

/-- A parser element: input characters, start position, `doActions` flag. -/
def Parser : Type := List Char → Nat → Bool → PResult

/-- pyparsing default whitespace characters (space, newline, tab). -/
def isWsChar (c : Char) : Bool := c = ' ' || c = '\n' || c = '\t'

/-- `Keyword.DEFAULT_KEYWORD_CHARS`: alphanumerics, underscore and dollar. -/
def identChar (c : Char) : Bool := c.isAlphanum || c = '_' || c = '$'

/-- Regex word characters used by the `\b` boundaries of `one_of(...,
as_keyword=True)` (ASCII fragment; the inputs are ASCII). -/
def wordChar (c : Char) : Bool := c.isAlphanum || c = '_'

/-- Number of leading whitespace characters of a list. -/
def wsCount : List Char → Nat
  | [] => 0
  | c :: cs => if isWsChar c then wsCount cs + 1 else 0

/-- `preParse`: skip leading whitespace from position `i`. -/
def skipWs (l : List Char) (i : Nat) : Nat := i + wsCount (l.drop i)

/-- Keyword boundary test on the character before position `j` (true at the
start of input). -/
def prevNonClass (cls : Char → Bool) (l : List Char) (j : Nat) : Bool :=
  match j with
  | 0 => true
  | Nat.succ j' =>
    match l.get? j' with
    | some c => !(cls c)
    | none => true

/-- Keyword boundary test on the character at position `j` (true at the end of
input). -/
def nextNonClass (cls : Char → Bool) (l : List Char) (j : Nat) : Bool :=
  match l.get? j with
  | some c => !(cls c)
  | none => true

/-- Lowercase a character list (Python `str.lower()` on ASCII input). -/
def lowerStr (s : List Char) : List Char := s.map Char.toLower

/-- `pp.Keyword(kw)`: case-sensitive match of `kw` with identifier-character
boundaries on both sides. -/
def kwP (kw : String) : Parser := fun l i _ =>
  let j := skipWs l i
  if (l.drop j).take kw.data.length = kw.data
      ∧ prevNonClass identChar l j = true
      ∧ nextNonClass identChar l (j + kw.data.length) = true then
    .ok (j + kw.data.length) [Tok.str kw]
  else .fail

/-- `pp.CaselessKeyword(kw)`: caseless match of `kw` with identifier-character
boundaries; the returned token is the keyword as defined. -/
def caselessKwP (kw : String) : Parser := fun l i _ =>
  let j := skipWs l i
  if lowerStr ((l.drop j).take kw.data.length) = lowerStr kw.data
      ∧ prevNonClass identChar l j = true
      ∧ nextNonClass identChar l (j + kw.data.length) = true then
    .ok (j + kw.data.length) [Tok.str kw]
  else .fail

/-- `pp.one_of(syms, caseless=True, as_keyword=True)`: a caseless regex
`\b(?:sym|…)\b`, equivalent to matching the maximal word at the position and
testing caseless membership in the symbol set (all the source's symbols are
lowercase).  The attached parse action replaces the matched text by the symbol
as defined, so the token is canonical lowercase when actions run. -/
def oneOfKwP (syms : List String) : Parser := fun l i da =>
  let j := skipWs l i
  let w := (l.drop j).takeWhile wordChar
  if w ≠ [] ∧ prevNonClass wordChar l j = true ∧ lowerStr w ∈ syms.map (·.data) then
    .ok (j + w.length) [Tok.str (String.mk (if da then lowerStr w else w))]
  else .fail

/-- `pp.Literal` (used through `pp.Suppress` for the punctuation): exact match,
no boundary checks. -/
def litP (s : String) : Parser := fun l i _ =>
  let j := skipWs l i
  if (l.drop j).take s.data.length = s.data then
    .ok (j + s.data.length) [Tok.str s]
  else .fail

/-- `pp.Word(init, body)`: one character from `init` followed by the maximal
run of characters from `body`. -/
def wordP (initCls bodyCls : Char → Bool) : Parser := fun l i _ =>
  let j := skipWs l i
  match l.drop j with
  | [] => .fail
  | c :: cs =>
    if initCls c then
      let body := cs.takeWhile bodyCls
      .ok (j + 1 + body.length) [Tok.str (String.mk (c :: body))]
    else .fail

/-- `.suppress()`: keep the match, drop its tokens. -/
def suppressP (p : Parser) : Parser := fun l i da =>
  match p l i da with
  | .ok j _ => .ok j []
  | .fail => .fail
  | .fatal e => .fatal e

/-- `+` (`pp.And`): sequence two elements, concatenating tokens; failures and
raised exceptions propagate. -/
def pseq (p q : Parser) : Parser := fun l i da =>
  match p l i da with
  | .ok j t1 =>
    match q l j da with
    | .ok k t2 => .ok k (t1 ++ t2)
    | .fail => .fail
    | .fatal e => .fatal e
  | .fail => .fail
  | .fatal e => .fatal e

/-- `^` (`pp.Or`): try both alternatives with `doActions=False`, commit to the
one matching the longest prefix (ties to the left), re-parse the winner with
the incoming `doActions` flag. -/
def por (p q : Parser) : Parser := fun l i da =>
  match p l i false, q l i false with
  | .ok j _, .ok k _ => if j < k then q l i da else p l i da
  | .ok _ _, .fail => p l i da
  | .ok _ _, .fatal e => .fatal e
  | .fail, .ok _ _ => q l i da
  | .fatal e, _ => .fatal e
  | .fail, .fatal e => .fatal e
  | .fail, .fail => .fail

/-- `.set_parse_action(act)`: when actions are enabled, a successful match's
tokens are replaced by the action's result; a Python exception raised by the
action becomes a fatal result. -/
def withAction (p : Parser) (act : List Tok → Except PyErr (List Tok)) : Parser :=
  fun l i da =>
    match p l i da with
    | .ok j t =>
      if da then
        match act t with
        | .ok t2 => .ok j t2
        | .error e => .fatal e
      else .ok j t
    | .fail => .fail
    | .fatal e => .fatal e

/-- `expr*(n, n)` exact repetition (from `DelimitedList(min=n, max=n)`);
`repExact p 0` is pyparsing's `And([])`, matching the empty string. -/
def repExact (p : Parser) : Nat → Parser
  | 0 => fun _ i _ => .ok i []
  | Nat.succ n => pseq p (repExact p n)

/-- `ZeroOrMore` (from `DelimitedList` without `max`): greedily repeat `p` as
long as it matches; a failing iteration stops the loop without consuming; an
exception raised inside an iteration propagates.  The fuel bound is ample at
every use site (each iteration consumes at least one character). -/
def zeroOrMore (p : Parser) : Nat → Parser
  | 0 => fun _ i _ => .ok i []
  | Nat.succ n => fun l i da =>
    match p l i da with
    | .ok j t =>
      match zeroOrMore p n l j da with
      | .ok k t2 => .ok k (t ++ t2)
      | .fail => .fail
      | .fatal e => .fatal e
    | .fail => .ok i []
    | .fatal e => .fatal e

/-! ### Parse actions (`a_type`, `a_field`) -/

/-- The `m_basic` dictionary of `a_type`: primitive keyword to Arrow type.
`interval_year_month` and `interval_day_time` are commented out in the
source. -/
def m_basic (typ : String) : Option ArrowType :=
  match typ with
  | "tinyint" => some .int8
  | "smallint" => some .int16
  | "int" => some .int32
  | "bigint" => some .int64
  | "float" => some .float32
  | "double" => some .float64
  | "boolean" => some .boolT
  | "string" => some .stringT
  | "char" => some .stringT
  | "varchar" => some .stringT
  | "binary" => some .binaryT
  | "timestamp" => some (.timestamp "ns")
  | "date" => some .date32
  | _ => none

/-- Python `int` applied to a digit string (the grammar only feeds it
`Word(nums)` matches). -/
def strToNat (s : String) : Nat := s.data.foldl (fun n c => n * 10 + (c.toNat - 48)) 0

/-- `pa.decimal128(*map(int, args))`: requires one or two integer arguments
(`precision`, optional `scale`, default 0); zero or three-plus arguments raise
`TypeError`; pyarrow validates precision in 1..38 with `ValueError`. -/
def pa_decimal128 (args : List Nat) : Except PyErr ArrowType :=
  match args with
  | [] => .error (.typeError "decimal128() missing 1 required positional argument: precision")
  | [p] =>
    if 1 ≤ p ∧ p ≤ 38 then .ok (.decimal128 p 0)
    else .error (.valueError "decimal128 precision out of range")
  | [p, s] =>
    if 1 ≤ p ∧ p ≤ 38 then .ok (.decimal128 p s)
    else .error (.valueError "decimal128 precision out of range")
  | _ => .error (.typeError "decimal128() takes from 1 to 2 positional arguments")

/-- Python `map(int, args)` on the argument tokens: every argument must be a
matched string (`int` of anything else raises `TypeError`). -/
def toInts : List Tok → Option (List Nat)
  | [] => some []
  | Tok.str s :: rest => (toInts rest).map (fun ns => strToNat s :: ns)
  | _ => none

/-- Collect struct member tokens into a field sequence (`pa.struct(args)`
expects fields). -/
def toFields : List Tok → Option ArrowFields
  | [] => some ArrowFields.nil
  | Tok.field n t :: rest => (toFields rest).map (ArrowFields.cons n t)
  | _ => none

/-- The `a_type` parse action: `typ, args = toks[0], toks[1:]`; look `typ` up
in `m_basic`, else handle `decimal`, `array`, `struct` (the `map` branch is
commented out in the source), else raise
`NotImplementedError(f"Type {typ} is not supported")`. -/
def a_type (toks : List Tok) : Except PyErr (List Tok) :=
  match toks with
  | Tok.str typ :: args =>
    match m_basic typ with
    | some t => .ok [Tok.typ t]
    | none =>
      if typ = "decimal" then
        match toInts args with
        | some ns => (pa_decimal128 ns).map (fun t => [Tok.typ t])
        | none => .error (.typeError "int() argument must be a string or a number")
      else if typ = "array" then
        match args with
        | [Tok.typ t] => .ok [Tok.typ (.list t)]
        | _ => .error (.typeError "list_ expects a DataType")
      else if typ = "struct" then
        match toFields args with
        | some fs => .ok [Tok.typ (.struct fs)]
        | none => .error (.typeError "struct expects fields")
      else .error (.notImplemented ("Type " ++ typ ++ " is not supported"))
  | _ => .error (.typeError "a_type expects a keyword token")

/-- The `a_field` parse action: `pa.field(toks[0], toks[1])`. -/
def a_field (toks : List Tok) : Except PyErr (List Tok) :=
  match toks with
  | [Tok.str name, Tok.typ t] => .ok [Tok.field name t]
  | _ => .error (.typeError "field expects a name and a DataType")

/-! ### The grammar -/

/-- `LB, RB, LP, RP, LT, RT, COMMA, COLON = map(pp.Suppress, "[]()<>,:")` -/
def LB : Parser := suppressP (litP "[")

def RB : Parser := suppressP (litP "]")

def LP : Parser := suppressP (litP "(")

def RP : Parser := suppressP (litP ")")

def LT : Parser := suppressP (litP "<")

def RT : Parser := suppressP (litP ">")

def COMMA : Parser := suppressP (litP ",")

def COLON : Parser := suppressP (litP ":")

/-- `pp.Word(pp.nums)` -/
def t_num : Parser := wordP Char.isDigit Char.isDigit

/-- `t_args(n) = LP + pp.delimitedList(pp.Word(pp.nums), ",", min=n, max=n) + RP`:
exactly `n` comma-separated integers in parentheses. -/
def t_args (n : Nat) : Parser :=
  pseq LP (pseq (pseq t_num (repExact (pseq COMMA t_num) (n - 1))) RP)

/-- `t_basic`: the bare primitive keywords (note that `decimal` is in the
list, and `char`/`varchar` are not). -/
def t_basic : Parser :=
  oneOfKwP ["tinyint", "smallint", "int", "bigint", "float", "double",
    "boolean", "string", "binary", "timestamp", "date", "decimal"]

/-- `t_interval`: the two interval keywords; no parse action is attached
anywhere on this element. -/
def t_interval : Parser := oneOfKwP ["interval_year_month", "interval_day_time"]

/-- `t_char = pp.one_of("char varchar", caseless=True, as_keyword=True) + t_args(1)` -/
def t_char : Parser := pseq (oneOfKwP ["char", "varchar"]) (t_args 1)

/-- `t_decimal = pp.CaselessKeyword("decimal") + t_args(2)` -/
def t_decimal : Parser := pseq (caselessKwP "decimal") (t_args 2)

/-- `t_primitive = (t_basic ^ t_char ^ t_decimal).set_parse_action(a_type)` -/
def t_primitive : Parser := withAction (por (por t_basic t_char) t_decimal) a_type

/-- `t_label = pp.Word(pp.alphas + "_", pp.alphanums + "_")` -/
def t_label : Parser :=
  wordP (fun c => c.isAlpha || c = '_') (fun c => c.isAlphanum || c = '_')

/-- `t_array = pp.CaselessKeyword('array') + LT + t_type + RT` (the recursive
`t_type` is passed in, closing pyparsing's `Forward`). -/
def t_array (tt : Parser) : Parser := pseq (caselessKwP "array") (pseq LT (pseq tt RT))

/-- `t_map = pp.CaselessKeyword('map') + LT + t_primitive + COMMA + t_type + RT` -/
def t_map (tt : Parser) : Parser :=
  pseq (caselessKwP "map") (pseq LT (pseq t_primitive (pseq COMMA (pseq tt RT))))

/-- `(t_label + COLON + t_type).set_parse_action(a_field)`: one struct member. -/
def t_structMember (tt : Parser) : Parser :=
  withAction (pseq t_label (pseq COLON tt)) a_field

/-- `t_struct = pp.CaselessKeyword('struct') + LT + pp.delimitedList(member, ",") + RT` -/
def t_struct (tt : Parser) (fuel : Nat) : Parser :=
  pseq (caselessKwP "struct")
    (pseq LT
      (pseq (pseq (t_structMember tt) (zeroOrMore (pseq COMMA (t_structMember tt)) fuel))
        RT))

/-- `t_complex = (t_array ^ t_map ^ t_struct).set_parse_action(a_type)` -/
def t_complex (tt : Parser) (fuel : Nat) : Parser :=
  withAction (por (por (t_array tt) (t_map tt)) (t_struct tt fuel)) a_type

/-- `t_type <<= t_primitive ^ t_complex`: the recursive type rule, unrolled on
fuel (each recursive entry consumes input, so fuel = input length + 1 is ample
at the top level). -/
def t_type : Nat → Parser
  | 0 => fun _ _ _ => PResult.fail
  | Nat.succ fuel => por t_primitive (t_complex (t_type fuel) fuel)

/-- `t_top_type = t_type ^ t_interval` -/
def t_top_type (fuel : Nat) : Parser := por (t_type fuel) t_interval

/-! ### The schema envelope and the extractor -/

/-- `pp.Keyword("Schema").suppress()` (case-sensitive). -/
def l_schema : Parser := suppressP (kwP "Schema")

/-- `pp.Keyword("fieldSchemas").suppress()` -/
def l_fieldschemas : Parser := suppressP (kwP "fieldSchemas")

/-- `pp.Keyword("FieldSchema").suppress()` -/
def l_fieldschema : Parser := suppressP (kwP "FieldSchema")

/-- `pp.Keyword("name").suppress()` -/
def l_name : Parser := suppressP (kwP "name")

/-- `pp.Keyword("type").suppress()` -/
def l_type : Parser := suppressP (kwP "type")

/-- `pp.Keyword("comment").suppress()` -/
def l_comment : Parser := suppressP (kwP "comment")

/-- `pp.Keyword("properties").suppress()` -/
def l_properties : Parser := suppressP (kwP "properties")

/-- `pp.Keyword("null").suppress()` -/
def l_null : Parser := suppressP (kwP "null")

/-- `t_fieldschema = l_fieldschema + LP + l_name + COLON + t_label.suppress()
+ COMMA + l_type + COLON + t_top_type + COMMA + l_comment + COLON + l_null +
RP`.  Note that the field name label is suppressed. -/
def t_fieldschema (fuel : Nat) : Parser :=
  pseq l_fieldschema
    (pseq LP
      (pseq l_name
        (pseq COLON
          (pseq (suppressP t_label)
            (pseq COMMA
              (pseq l_type
                (pseq COLON
                  (pseq (t_top_type fuel)
                    (pseq COMMA
                      (pseq l_comment
                        (pseq COLON (pseq l_null RP))))))))))))

/-- `t_schema = l_schema + LP + l_fieldschemas + COLON + LB +
pp.delimitedList(t_fieldschema, ',') + RB + COMMA + l_properties + COLON +
l_null + RP`. -/
def t_schema (fuel : Nat) : Parser :=
  pseq l_schema
    (pseq LP
      (pseq l_fieldschemas
        (pseq COLON
          (pseq LB
            (pseq (pseq (t_fieldschema fuel) (zeroOrMore (pseq COMMA (t_fieldschema fuel)) fuel))
              (pseq RB
                (pseq COMMA
                  (pseq l_properties
                    (pseq COLON (pseq l_null RP))))))))))

/-- `expr.parse_string(s)` with the default `parse_all=False`: parse from
position 0 with actions enabled; trailing unconsumed text is ignored.  A
grammar failure surfaces as the pyparsing `ParseException`, an exception from a
parse action propagates as itself; `.as_list()` turns the result into a plain
token list. -/
def parseString (p : Nat → Parser) (s : String) : Except PyErr (List Tok) :=
  match p (s.data.length + 1) s.data 0 true with
  | .ok _ toks => .ok toks
  | .fail => .error PyErr.parseError
  | .fatal e => .error e

/-- The fixed marker text of `parse_schema` (with the double space). -/
def marker : String := "INFO  : Returning Hive schema: "

/-- `parse_schema(logs)`: scan the lines for the first one starting with the
marker (Python `str.startswith`, modelled character-wise), strip the marker
(`l[len(prefix):]`) and parse the remainder with `t_schema`; with no matching
line the loop falls through and the function returns `None`. -/
def parse_schema : List String → Option (Except PyErr (List Tok))
  | [] => none
  | l :: ls =>
    if l.data.take marker.data.length = marker.data then
      some (parseString t_schema (String.mk (l.data.drop marker.data.length)))
    else parse_schema ls

/-! ### Helpers for statements -/

instance instDecEqExcept {ε α : Type} [DecidableEq ε] [DecidableEq α] :
    DecidableEq (Except ε α) := fun x y =>
  match x, y with
  | .ok a, .ok b =>
    if h : a = b then .isTrue (by rw [h]) else .isFalse (fun hh => h (Except.ok.inj hh))
  | .error a, .error b =>
    if h : a = b then .isTrue (by rw [h]) else .isFalse (fun hh => h (Except.error.inj hh))
  | .ok _, .error _ => .isFalse (fun hh => Except.noConfusion hh)
  | .error _, .ok _ => .isFalse (fun hh => Except.noConfusion hh)

/-- A well-formed one-field schema payload with field name `n` and type text
`t`, in the exact envelope accepted by `t_schema`. -/
def payload (n t : String) : String :=
  "Schema(fieldSchemas:[FieldSchema(name:" ++ n ++ ",type:" ++ t ++ ",comment:null)],properties:null)"

/-- A log line carrying the marker followed by a one-field schema payload. -/
def logLine (n t : String) : String := marker ++ payload n t

/-! ### Combinator lemmas -/

theorem pseq_ok_of {p q : Parser} {l : List Char} {i j k : Nat} {da : Bool}
    {t1 t2 : List Tok} (hp : p l i da = .ok j t1) (hq : q l j da = .ok k t2) :
    pseq p q l i da = .ok k (t1 ++ t2) := by
  simp only [pseq, hp, hq]

theorem pseq_fail_left {p q : Parser} {l : List Char} {i : Nat} {da : Bool}
    (hp : p l i da = .fail) : pseq p q l i da = .fail := by
  simp only [pseq, hp]

theorem pseq_eq_ok {p q : Parser} {l : List Char} {i k : Nat} {da : Bool} {t : List Tok}
    (h : pseq p q l i da = .ok k t) :
    ∃ j t1 t2, p l i da = .ok j t1 ∧ q l j da = .ok k t2 ∧ t = t1 ++ t2 := by
  cases hp : p l i da with
  | ok j t1 =>
    simp only [pseq, hp] at h
    cases hq : q l j da with
    | ok k2 t2 =>
      simp only [hq, PResult.ok.injEq] at h
      obtain ⟨hk, ht⟩ := h
      subst hk
      subst ht
      exact ⟨j, t1, t2, rfl, hq, rfl⟩
    | fail => simp [hq] at h
    | fatal e => simp [hq] at h
  | fail => simp [pseq, hp] at h
  | fatal e => simp [pseq, hp] at h

theorem por_right_fail {p q : Parser} {l : List Char} {i j : Nat} {da : Bool} {t : List Tok}
    (hp : p l i false = .ok j t) (hq : q l i false = .fail) :
    por p q l i da = p l i da := by
  simp only [por, hp, hq]

theorem por_left_fail {p q : Parser} {l : List Char} {i k : Nat} {da : Bool} {t : List Tok}
    (hp : p l i false = .fail) (hq : q l i false = .ok k t) :
    por p q l i da = q l i da := by
  simp only [por, hp, hq]

theorem por_both_lt {p q : Parser} {l : List Char} {i j k : Nat} {da : Bool}
    {t1 t2 : List Tok} (hp : p l i false = .ok j t1) (hq : q l i false = .ok k t2)
    (hlt : j < k) : por p q l i da = q l i da := by
  simp only [por, hp, hq, if_pos hlt]

theorem por_both_ge {p q : Parser} {l : List Char} {i j k : Nat} {da : Bool}
    {t1 t2 : List Tok} (hp : p l i false = .ok j t1) (hq : q l i false = .ok k t2)
    (hge : ¬ j < k) : por p q l i da = p l i da := by
  simp only [por, hp, hq, if_neg hge]

theorem por_fail {p q : Parser} {l : List Char} {i : Nat} {da : Bool}
    (hp : p l i false = .fail) (hq : q l i false = .fail) :
    por p q l i da = .fail := by
  simp only [por, hp, hq]

theorem por_eq_ok {p q : Parser} {l : List Char} {i k : Nat} {da : Bool} {t : List Tok}
    (h : por p q l i da = .ok k t) :
    p l i da = .ok k t ∨ q l i da = .ok k t := by
  cases hp : p l i false with
  | ok j t1 =>
    cases hq : q l i false with
    | ok k2 t2 =>
      by_cases hlt : j < k2
      · rw [por_both_lt hp hq hlt] at h; exact Or.inr h
      · rw [por_both_ge hp hq hlt] at h; exact Or.inl h
    | fail => rw [por_right_fail hp hq] at h; exact Or.inl h
    | fatal e => simp [por, hp, hq] at h
  | fail =>
    cases hq : q l i false with
    | ok k2 t2 => rw [por_left_fail hp hq] at h; exact Or.inr h
    | fail => rw [por_fail hp hq] at h; exact absurd h (by simp)
    | fatal e => simp [por, hp, hq] at h
  | fatal e =>
    cases hq : q l i false with
    | ok k2 t2 => simp [por, hp, hq] at h
    | fail => simp [por, hp, hq] at h
    | fatal e2 => simp [por, hp, hq] at h

theorem withAction_ok_true {p : Parser} {act : List Tok → Except PyErr (List Tok)}
    {l : List Char} {i j : Nat} {t t2 : List Tok}
    (hp : p l i true = .ok j t) (ha : act t = .ok t2) :
    withAction p act l i true = .ok j t2 := by
  simp [withAction, hp, ha]

theorem withAction_fatal_true {p : Parser} {act : List Tok → Except PyErr (List Tok)}
    {l : List Char} {i j : Nat} {t : List Tok} {e : PyErr}
    (hp : p l i true = .ok j t) (ha : act t = .error e) :
    withAction p act l i true = .fatal e := by
  simp [withAction, hp, ha]

theorem withAction_false {p : Parser} {act : List Tok → Except PyErr (List Tok)}
    {l : List Char} {i j : Nat} {t : List Tok} (hp : p l i false = .ok j t) :
    withAction p act l i false = .ok j t := by
  simp [withAction, hp]

theorem withAction_fail {p : Parser} {act : List Tok → Except PyErr (List Tok)}
    {l : List Char} {i : Nat} {da : Bool} (hp : p l i da = .fail) :
    withAction p act l i da = .fail := by
  simp [withAction, hp]

theorem withAction_eq_ok_true {p : Parser} {act : List Tok → Except PyErr (List Tok)}
    {l : List Char} {i k : Nat} {t : List Tok}
    (h : withAction p act l i true = .ok k t) :
    ∃ t0, p l i true = .ok k t0 ∧ act t0 = .ok t := by
  cases hp : p l i true with
  | ok j t0 =>
    simp only [withAction, hp, if_true] at h
    cases ha : act t0 with
    | ok t2 =>
      simp only [ha, PResult.ok.injEq] at h
      obtain ⟨hk, ht⟩ := h
      subst hk
      subst ht
      exact ⟨t0, rfl, ha⟩
    | error e => simp [ha] at h
  | fail => simp [withAction, hp] at h
  | fatal e => simp [withAction, hp] at h

theorem suppressP_ok_of {p : Parser} {l : List Char} {i j : Nat} {da : Bool} {t : List Tok}
    (hp : p l i da = .ok j t) : suppressP p l i da = .ok j [] := by
  simp [suppressP, hp]

theorem suppressP_eq_ok {p : Parser} {l : List Char} {i k : Nat} {da : Bool} {t : List Tok}
    (h : suppressP p l i da = .ok k t) : t = [] ∧ ∃ t0, p l i da = .ok k t0 := by
  cases hp : p l i da with
  | ok j t0 =>
    simp only [suppressP, hp, PResult.ok.injEq] at h
    obtain ⟨hk, ht⟩ := h
    subst hk
    subst ht
    exact ⟨rfl, t0, rfl⟩
  | fail => simp [suppressP, hp] at h
  | fatal e => simp [suppressP, hp] at h

theorem zeroOrMore_of_fail {p : Parser} {l : List Char} {i : Nat} {da : Bool}
    (hp : p l i da = .fail) :
    ∀ fuel, zeroOrMore p fuel l i da = .ok i [] := by
  intro fuel
  cases fuel with
  | zero => rfl
  | succ n => simp only [zeroOrMore, hp]

theorem caselessKwP_eq_ok {kw : String} {l : List Char} {i k : Nat} {da : Bool} {t : List Tok}
    (h : caselessKwP kw l i da = .ok k t) :
    t = [Tok.str kw] ∧
      lowerStr ((l.drop (skipWs l i)).take kw.data.length) = lowerStr kw.data := by
  simp only [caselessKwP] at h
  split at h
  · injection h with hk ht
    rename_i hc
    exact ⟨ht.symm, hc.1⟩
  · exact absurd h (by simp)

/-- A `CaselessKeyword` fails when the (lowercased) first character at the
position differs from the keyword's first character. -/
theorem caselessKwP_fail_of_head (kw : String) {l : List Char} {i : Nat} {da : Bool}
    {c : Char} (hhd : (l.drop (skipWs l i)).head? = some c)
    (hk : ∃ c2 rest, kw.data = c2 :: rest ∧ c.toLower ≠ c2.toLower) :
    caselessKwP kw l i da = .fail := by
  obtain ⟨c2, rest, hkw, hne⟩ := hk
  cases hd : l.drop (skipWs l i) with
  | nil => rw [hd] at hhd; exact absurd hhd (by simp)
  | cons c0 d =>
    rw [hd] at hhd
    injection hhd with hc0
    subst hc0
    simp only [caselessKwP]
    rw [if_neg]
    rintro ⟨h1, -, -⟩
    rw [hd, hkw] at h1
    simp only [List.length_cons, List.take_succ_cons, lowerStr, List.map_cons] at h1
    exact hne (List.cons.inj h1).1

theorem oneOfKwP_eq_ok {syms : List String} {l : List Char} {i k : Nat} {da : Bool}
    {t : List Tok} (h : oneOfKwP syms l i da = .ok k t) : ∃ s, t = [Tok.str s] := by
  simp only [oneOfKwP] at h
  split at h
  · injection h with hk ht
    exact ⟨_, ht.symm⟩
  · exact absurd h (by simp)

/-- `a_type` on a token list headed by the keyword `map` always raises
`NotImplementedError` naming the type (the source's `map` branch is commented
out, so control falls through to the `raise`). -/
theorem a_type_map (args : List Tok) :
    a_type (Tok.str "map" :: args) =
      .error (.notImplemented "Type map is not supported") := rfl

/-- Every successful `a_type` result is a single built data type token. -/
theorem a_type_ok_single {toks t : List Tok} (h : a_type toks = .ok t) :
    ∃ ty, t = [Tok.typ ty] := by
  unfold a_type at h
  split at h
  · rename_i typ args
    cases hm : m_basic typ with
    | some ty => simp only [hm, Except.ok.injEq] at h; exact ⟨ty, h.symm⟩
    | none =>
      simp only [hm] at h
      split_ifs at h
      · rename_i hdec
        cases hargs : toInts args with
        | some ns =>
          rw [hargs] at h
          cases hd : pa_decimal128 ns with
          | ok ty => simp only [hd, Except.map, Except.ok.injEq] at h; exact ⟨ty, h.symm⟩
          | error e => simp [hd, Except.map] at h
        | none => simp [hargs] at h
      · rename_i harr
        split at h
        · rename_i ty
          injection h with ht
          exact ⟨ArrowType.list ty, ht.symm⟩
        · simp at h
      · rename_i hstr
        cases hf : toFields args with
        | some fs =>
          simp only [hf, Except.ok.injEq] at h
          exact ⟨ArrowType.struct fs, h.symm⟩
        | none => simp [hf] at h
  · simp at h

theorem lowerStr_eq_head {a b : List Char} (h : lowerStr a = lowerStr b) :
    ∀ c0 a0 c1 b0, a = c0 :: a0 → b = c1 :: b0 → c0.toLower = c1.toLower := by
  intro c0 a0 c1 b0 ha hb
  subst ha
  subst hb
  simpa [lowerStr] using congrArg List.head? h

/-- A successful caseless match of the keyword `map` pins the lowercased first
character at the match position to `m`. -/
theorem caselessKwP_map_head {l : List Char} {i k : Nat} {da : Bool} {t : List Tok}
    (h : caselessKwP "map" l i da = .ok k t) :
    ∃ c, (l.drop (skipWs l i)).head? = some c ∧ c.toLower = 'm' := by
  obtain ⟨-, htake⟩ := caselessKwP_eq_ok h
  cases hd : l.drop (skipWs l i) with
  | nil =>
    rw [hd] at htake
    exact absurd htake (by decide)
  | cons c0 d =>
    rw [hd] at htake
    have hsplit : (c0 :: d).take ("map".data.length) = c0 :: d.take 2 := rfl
    rw [hsplit] at htake
    exact ⟨c0, rfl, lowerStr_eq_head htake c0 _ 'm' _ rfl rfl⟩

/-! ### Claims -/

/-- C2 (corrected): a schema payload whose field type is an interval keyword
does not raise any error: `t_interval` carries no parse action, so the parse
silently succeeds and the result contains the raw keyword string. -/
theorem C2_interval_parses_silently :
    parse_schema [logLine "c" "interval_year_month"] =
      some (Except.ok [Tok.str "interval_year_month"]) ∧
    parse_schema [logLine "c" "interval_day_time"] =
      some (Except.ok [Tok.str "interval_day_time"]) := ⟨rfl, rfl⟩

/-- C2 counterexample: at the concrete one-field payload with type
`interval_year_month`, `parse_schema` succeeds with the raw keyword string; it
does not raise an `UnsupportedTypeError` (`NotImplementedError`) naming the
type, contradicting the claim. -/
theorem C2_counterexample :
    parse_schema [logLine "c" "interval_year_month"] =
      some (Except.ok [Tok.str "interval_year_month"]) ∧
    parse_schema [logLine "c" "interval_year_month"] ≠
      some (Except.error
        (PyErr.notImplemented "Type interval_year_month is not supported")) := by
  exact ⟨rfl, by decide⟩

/-- C4 (confirmed): `por` (pyparsing `Or`, the `^` used at every alternation
point of this grammar) commits to the alternative whose trial consumed the
most input, and for `decimal(10,2)` the parameterized alternative
(`t_decimal`, 13 characters) beats the bare keyword (`t_basic`, 7 characters),
so `t_primitive` builds `decimal128(10, 2)`. -/
theorem C4_longest_match :
    (∀ (p q : Parser) (l : List Char) (i : Nat) (da : Bool) (j k : Nat)
        (t1 t2 : List Tok),
      p l i false = PResult.ok j t1 → q l i false = PResult.ok k t2 → j < k →
      por p q l i da = q l i da) ∧
    (∀ (p q : Parser) (l : List Char) (i : Nat) (da : Bool) (j k : Nat)
        (t1 t2 : List Tok),
      p l i false = PResult.ok j t1 → q l i false = PResult.ok k t2 → ¬ j < k →
      por p q l i da = p l i da) ∧
    t_basic ("decimal(10,2),x".data) 0 false = PResult.ok 7 [Tok.str "decimal"] ∧
    t_decimal ("decimal(10,2),x".data) 0 false =
      PResult.ok 13 [Tok.str "decimal", Tok.str "10", Tok.str "2"] ∧
    t_primitive ("decimal(10,2),x".data) 0 true =
      PResult.ok 13 [Tok.typ (ArrowType.decimal128 10 2)] ∧
    parse_schema [logLine "d" "decimal(10,2)"] =
      some (Except.ok [Tok.typ (ArrowType.decimal128 10 2)]) :=
  ⟨fun _ _ _ _ _ _ _ _ _ hp hq hlt => por_both_lt hp hq hlt,
   fun _ _ _ _ _ _ _ _ _ hp hq hge => por_both_ge hp hq hge,
   rfl, rfl, rfl, rfl⟩

theorem C4_witness :
    por t_basic t_decimal ("decimal(10,2),x".data) 0 true =
      t_decimal ("decimal(10,2),x".data) 0 true :=
  C4_longest_match.1 t_basic t_decimal ("decimal(10,2),x".data) 0 true 7 13
    [Tok.str "decimal"] [Tok.str "decimal", Tok.str "10", Tok.str "2"]
    rfl rfl (by decide)

/-- C5 (confirmed): whenever the `map` production matches grammatically at a
position (and building its component types succeeds), `t_complex` raises
`NotImplementedError` naming the map type — the alternation cannot recover,
because `t_array` and `t_struct` cannot match where `map` matched, so the
committed branch runs `a_type` on a `map`-headed token list.  At concrete
payloads, a map-typed field (top-level or nested) makes `parse_schema`
propagate exactly that error. -/
theorem C5_map_unsupported :
    (∀ (tt : Parser) (l : List Char) (i fuel j j2 : Nat) (tg ta : List Tok),
      t_map tt l i false = PResult.ok j2 tg →
      t_map tt l i true = PResult.ok j ta →
      t_complex tt fuel l i true =
        PResult.fatal (PyErr.notImplemented "Type map is not supported")) ∧
    parse_schema [logLine "m" "map<int,string>"] =
      some (Except.error (PyErr.notImplemented "Type map is not supported")) ∧
    parse_schema [logLine "s" "struct<a:map<int,int>>"] =
      some (Except.error (PyErr.notImplemented "Type map is not supported")) := by
  refine ⟨?_, rfl, rfl⟩
  intro tt l i fuel j j2 tg ta htrial htrue
  simp only [t_map] at htrial htrue
  obtain ⟨j1, t1, t2, hkw, hrest, hta⟩ := pseq_eq_ok htrue
  obtain ⟨ht1, -⟩ := caselessKwP_eq_ok hkw
  obtain ⟨c, hc, hcm⟩ := caselessKwP_map_head hkw
  have harr : ∀ da, caselessKwP "array" l i da = .fail := fun da =>
    caselessKwP_fail_of_head "array" hc ⟨'a', _, rfl, by rw [hcm]; decide⟩
  have hstr2 : ∀ da, caselessKwP "struct" l i da = .fail := fun da =>
    caselessKwP_fail_of_head "struct" hc ⟨'s', _, rfl, by rw [hcm]; decide⟩
  have harrF : ∀ da, t_array tt l i da = .fail := fun da => by
    simp only [t_array]; exact pseq_fail_left (harr da)
  have hstrF : ∀ da, t_struct tt fuel l i da = .fail := fun da => by
    simp only [t_struct]; exact pseq_fail_left (hstr2 da)
  have hinner : ∀ da, por (t_array tt) (t_map tt) l i da = t_map tt l i da :=
    fun da => por_left_fail (harrF false) htrial
  have hinnerF : por (t_array tt) (t_map tt) l i false = PResult.ok j2 tg := by
    rw [hinner false]; exact htrial
  have houter :
      por (por (t_array tt) (t_map tt)) (t_struct tt fuel) l i true =
        PResult.ok j ta := by
    rw [por_right_fail hinnerF (hstrF false), hinner true]
    exact htrue
  simp only [t_complex]
  refine withAction_fatal_true houter ?_
  rw [hta, ht1]
  exact a_type_map t2

theorem C5_witness :
    t_complex (t_type 20) 20 ("map<int,string>".data) 0 true =
      PResult.fatal (PyErr.notImplemented "Type map is not supported") :=
  C5_map_unsupported.1 (t_type 20) ("map<int,string>".data) 0 20 15 15
    [Tok.str "map", Tok.str "int", Tok.str "string"]
    [Tok.str "map", Tok.typ ArrowType.int32, Tok.typ ArrowType.stringT]
    rfl rfl

/-- C6 (corrected): the eleven bare primitive keywords reachable from the
grammar map exactly as the table says, but `char` and `varchar` are not in
`t_basic`: bare `char`/`varchar` are rejected by the grammar (their only
production requires a parenthesized length), while `char(5)`/`varchar(5)`
build the string type. -/
theorem C6_primitive_mapping :
    parse_schema [logLine "c" "tinyint"] = some (Except.ok [Tok.typ ArrowType.int8]) ∧
    parse_schema [logLine "c" "smallint"] = some (Except.ok [Tok.typ ArrowType.int16]) ∧
    parse_schema [logLine "c" "int"] = some (Except.ok [Tok.typ ArrowType.int32]) ∧
    parse_schema [logLine "c" "bigint"] = some (Except.ok [Tok.typ ArrowType.int64]) ∧
    parse_schema [logLine "c" "float"] = some (Except.ok [Tok.typ ArrowType.float32]) ∧
    parse_schema [logLine "c" "double"] = some (Except.ok [Tok.typ ArrowType.float64]) ∧
    parse_schema [logLine "c" "boolean"] = some (Except.ok [Tok.typ ArrowType.boolT]) ∧
    parse_schema [logLine "c" "string"] = some (Except.ok [Tok.typ ArrowType.stringT]) ∧
    parse_schema [logLine "c" "binary"] = some (Except.ok [Tok.typ ArrowType.binaryT]) ∧
    parse_schema [logLine "c" "timestamp"] =
      some (Except.ok [Tok.typ (ArrowType.timestamp "ns")]) ∧
    parse_schema [logLine "c" "date"] = some (Except.ok [Tok.typ ArrowType.date32]) ∧
    parse_schema [logLine "c" "char"] = some (Except.error PyErr.parseError) ∧
    parse_schema [logLine "c" "varchar"] = some (Except.error PyErr.parseError) ∧
    parse_schema [logLine "c" "char(5)"] = some (Except.ok [Tok.typ ArrowType.stringT]) ∧
    parse_schema [logLine "c" "varchar(5)"] = some (Except.ok [Tok.typ ArrowType.stringT]) :=
  ⟨rfl, rfl, rfl, rfl, rfl, rfl, rfl, rfl, rfl, rfl, rfl, rfl, rfl, rfl, rfl⟩

/-- C6 counterexample: the claim's table includes `char → string` for the bare
keyword, but a one-field schema with bare type `char` is rejected by the
grammar (`char` is not in `t_basic`; `t_char` demands `(n)`). -/
theorem C6_counterexample :
    parse_schema [logLine "c" "char"] = some (Except.error PyErr.parseError) ∧
    parse_schema [logLine "c" "char"] ≠ some (Except.ok [Tok.typ ArrowType.stringT]) := by
  exact ⟨rfl, by decide⟩

/-- C7 (corrected): a bare `decimal` field type is accepted by the grammar
(`decimal` is in the `t_basic` keyword list, so the payload matches with
actions disabled), and the failure happens at build time: `a_type` calls
`pa.decimal128` with zero arguments, raising `TypeError` — not a grammar-level
rejection. -/
theorem C7_bare_decimal_build_error :
    t_schema ((payload "d" "decimal").data.length + 1)
        ((payload "d" "decimal").data) 0 false =
      PResult.ok 84 [Tok.str "decimal"] ∧
    parse_schema [logLine "d" "decimal"] =
      some (Except.error (PyErr.typeError
        "decimal128() missing 1 required positional argument: precision")) ∧
    a_type [Tok.str "decimal"] =
      Except.error (PyErr.typeError
        "decimal128() missing 1 required positional argument: precision") :=
  ⟨rfl, rfl, rfl⟩

/-- C7 counterexample: at the concrete bare-`decimal` payload the outcome is a
propagated `TypeError` from value construction, not the grammar-level
`ParseException` the claim requires. -/
theorem C7_counterexample :
    parse_schema [logLine "d" "decimal"] =
      some (Except.error (PyErr.typeError
        "decimal128() missing 1 required positional argument: precision")) ∧
    parse_schema [logLine "d" "decimal"] ≠ some (Except.error PyErr.parseError) := by
  exact ⟨rfl, by decide⟩

/-- C9 (confirmed): composite types nest recursively and build bottom-up:
`struct<x:array<struct<y:int>>>` yields exactly
`Struct([Field("x", List(Struct([Field("y", int32)])))])`, and struct members
keep declaration order. -/
theorem C9_nested_composites :
    parse_schema [logLine "f" "struct<x:array<struct<y:int>>>"] =
      some (Except.ok [Tok.typ (ArrowType.struct (fieldsOf
        [("x", ArrowType.list (ArrowType.struct (fieldsOf
          [("y", ArrowType.int32)])))]))]) ∧
    parse_schema [logLine "s" "struct<a:int,b:string>"] =
      some (Except.ok [Tok.typ (ArrowType.struct (fieldsOf
        [("a", ArrowType.int32), ("b", ArrowType.stringT)]))]) := ⟨rfl, rfl⟩

/-- C10 (confirmed): `parse_string` is called without `parse_all`, so a line
whose payload starts with a complete well-formed `Schema(...)` expression
followed by non-grammatical trailing text parses successfully, returning the
result of the well-formed prefix and ignoring the rest. -/
theorem C10_trailing_text_ignored :
    parse_schema [marker ++ payload "id" "bigint" ++ " ??? this is not grammar"] =
      some (Except.ok [Tok.typ ArrowType.int64]) ∧
    parse_schema [logLine "id" "bigint"] =
      some (Except.ok [Tok.typ ArrowType.int64]) := ⟨rfl, rfl⟩

/-- C3 (corrected): the type-grammar keywords (primitive, `char`/`varchar`,
`decimal`, `array`/`map`/`struct`, the intervals) are matched caselessly —
flipping their case never changes the outcome — but the schema-envelope
keywords are built with case-sensitive `pp.Keyword`, so changing the case of
any envelope keyword occurrence turns a successful parse into a
`ParseException`. -/
theorem C3_keyword_case :
    (parse_schema [logLine "c" "TINYINT"] = parse_schema [logLine "c" "tinyint"] ∧
     parse_schema [logLine "c" "SMALLINT"] = parse_schema [logLine "c" "smallint"] ∧
     parse_schema [logLine "c" "INT"] = parse_schema [logLine "c" "int"] ∧
     parse_schema [logLine "c" "BIGINT"] = parse_schema [logLine "c" "bigint"] ∧
     parse_schema [logLine "c" "FLOAT"] = parse_schema [logLine "c" "float"] ∧
     parse_schema [logLine "c" "DOUBLE"] = parse_schema [logLine "c" "double"] ∧
     parse_schema [logLine "c" "BOOLEAN"] = parse_schema [logLine "c" "boolean"] ∧
     parse_schema [logLine "c" "STRING"] = parse_schema [logLine "c" "string"] ∧
     parse_schema [logLine "c" "BINARY"] = parse_schema [logLine "c" "binary"] ∧
     parse_schema [logLine "c" "TIMESTAMP"] = parse_schema [logLine "c" "timestamp"] ∧
     parse_schema [logLine "c" "DATE"] = parse_schema [logLine "c" "date"] ∧
     parse_schema [logLine "c" "DECIMAL"] = parse_schema [logLine "c" "decimal"] ∧
     parse_schema [logLine "c" "CHAR(5)"] = parse_schema [logLine "c" "char(5)"] ∧
     parse_schema [logLine "c" "VARCHAR(5)"] = parse_schema [logLine "c" "varchar(5)"] ∧
     parse_schema [logLine "c" "DECIMAL(10,2)"] = parse_schema [logLine "c" "decimal(10,2)"] ∧
     parse_schema [logLine "a" "ARRAY<INT>"] = parse_schema [logLine "a" "array<int>"] ∧
     parse_schema [logLine "m" "MAP<INT,STRING>"] = parse_schema [logLine "m" "map<int,string>"] ∧
     parse_schema [logLine "s" "STRUCT<a:INT>"] = parse_schema [logLine "s" "struct<a:int>"] ∧
     parse_schema [logLine "c" "INTERVAL_YEAR_MONTH"] =
       parse_schema [logLine "c" "interval_year_month"] ∧
     parse_schema [logLine "c" "INTERVAL_DAY_TIME"] =
       parse_schema [logLine "c" "interval_day_time"]) ∧
    (parse_schema [marker ++ "schema(fieldSchemas:[FieldSchema(name:c,type:int,comment:null)],properties:null)"] =
       some (Except.error PyErr.parseError) ∧
     parse_schema [marker ++ "Schema(FIELDSCHEMAS:[FieldSchema(name:c,type:int,comment:null)],properties:null)"] =
       some (Except.error PyErr.parseError) ∧
     parse_schema [marker ++ "Schema(fieldSchemas:[fieldschema(name:c,type:int,comment:null)],properties:null)"] =
       some (Except.error PyErr.parseError) ∧
     parse_schema [marker ++ "Schema(fieldSchemas:[FieldSchema(NAME:c,type:int,comment:null)],properties:null)"] =
       some (Except.error PyErr.parseError) ∧
     parse_schema [marker ++ "Schema(fieldSchemas:[FieldSchema(name:c,TYPE:int,comment:null)],properties:null)"] =
       some (Except.error PyErr.parseError) ∧
     parse_schema [marker ++ "Schema(fieldSchemas:[FieldSchema(name:c,type:int,COMMENT:null)],properties:null)"] =
       some (Except.error PyErr.parseError) ∧
     parse_schema [marker ++ "Schema(fieldSchemas:[FieldSchema(name:c,type:int,comment:null)],PROPERTIES:null)"] =
       some (Except.error PyErr.parseError) ∧
     parse_schema [marker ++ "Schema(fieldSchemas:[FieldSchema(name:c,type:int,comment:NULL)],properties:null)"] =
       some (Except.error PyErr.parseError)) ∧
    parse_schema [logLine "c" "int"] = some (Except.ok [Tok.typ ArrowType.int32]) :=
  ⟨⟨rfl, rfl, rfl, rfl, rfl, rfl, rfl, rfl, rfl, rfl, rfl, rfl, rfl, rfl, rfl,
    rfl, rfl, rfl, rfl, rfl⟩,
   ⟨rfl, rfl, rfl, rfl, rfl, rfl, rfl, rfl⟩, rfl⟩

/-- C3 counterexample: lowercasing the single envelope keyword `Schema` in an
otherwise well-formed line changes the parse outcome from a one-field success
to a `ParseException`, so not every keyword is matched caselessly. -/
theorem C3_counterexample :
    parse_schema [logLine "c" "int"] = some (Except.ok [Tok.typ ArrowType.int32]) ∧
    parse_schema [marker ++ "schema(fieldSchemas:[FieldSchema(name:c,type:int,comment:null)],properties:null)"] =
      some (Except.error PyErr.parseError) ∧
    parse_schema [marker ++ "schema(fieldSchemas:[FieldSchema(name:c,type:int,comment:null)],properties:null)"] ≠
      parse_schema [logLine "c" "int"] := by
  exact ⟨rfl, rfl, by decide⟩

/-! ### Nonemptiness of successful schema results (for C8) -/

theorem append_ne_nil_right {α : Type} {a b : List α} (h : b ≠ []) : a ++ b ≠ [] := by
  cases a <;> simp_all

theorem append_ne_nil_left {α : Type} {a b : List α} (h : a ≠ []) : a ++ b ≠ [] := by
  cases a <;> simp_all

/-- With actions enabled, a successful `t_type` always yields exactly one
built data type token (both alternatives funnel through `a_type`). -/
theorem t_type_true_single {fuel : Nat} {l : List Char} {i k : Nat} {t : List Tok}
    (h : t_type fuel l i true = .ok k t) : ∃ ty, t = [Tok.typ ty] := by
  cases fuel with
  | zero => simp [t_type] at h
  | succ f =>
    simp only [t_type] at h
    rcases por_eq_ok h with hp | hc
    · simp only [t_primitive] at hp
      obtain ⟨t0, -, ha⟩ := withAction_eq_ok_true hp
      exact a_type_ok_single ha
    · simp only [t_complex] at hc
      obtain ⟨t0, -, ha⟩ := withAction_eq_ok_true hc
      exact a_type_ok_single ha

/-- With actions enabled, a successful top-level type match yields a nonempty
token list (a built type, or the interval keyword string). -/
theorem t_top_type_true_ne_nil {fuel : Nat} {l : List Char} {i k : Nat} {t : List Tok}
    (h : t_top_type fuel l i true = .ok k t) : t ≠ [] := by
  simp only [t_top_type] at h
  rcases por_eq_ok h with hp | hq
  · obtain ⟨ty, ht⟩ := t_type_true_single hp
    subst ht
    simp
  · simp only [t_interval] at hq
    obtain ⟨s, ht⟩ := oneOfKwP_eq_ok hq
    subst ht
    simp

/-- A successful `t_fieldschema` match contributes a nonempty token list. -/
theorem t_fieldschema_true_ne_nil {fuel : Nat} {l : List Char} {i k : Nat} {t : List Tok}
    (h : t_fieldschema fuel l i true = .ok k t) : t ≠ [] := by
  simp only [t_fieldschema] at h
  obtain ⟨j1, a1, b1, -, h1, rfl⟩ := pseq_eq_ok h
  obtain ⟨j2, a2, b2, -, h2, rfl⟩ := pseq_eq_ok h1
  obtain ⟨j3, a3, b3, -, h3, rfl⟩ := pseq_eq_ok h2
  obtain ⟨j4, a4, b4, -, h4, rfl⟩ := pseq_eq_ok h3
  obtain ⟨j5, a5, b5, -, h5, rfl⟩ := pseq_eq_ok h4
  obtain ⟨j6, a6, b6, -, h6, rfl⟩ := pseq_eq_ok h5
  obtain ⟨j7, a7, b7, -, h7, rfl⟩ := pseq_eq_ok h6
  obtain ⟨j8, a8, b8, -, h8, rfl⟩ := pseq_eq_ok h7
  obtain ⟨j9, a9, b9, htop, -, rfl⟩ := pseq_eq_ok h8
  have h9 : a9 ≠ [] := t_top_type_true_ne_nil htop
  apply append_ne_nil_right
  apply append_ne_nil_right
  apply append_ne_nil_right
  apply append_ne_nil_right
  apply append_ne_nil_right
  apply append_ne_nil_right
  apply append_ne_nil_right
  apply append_ne_nil_right
  exact append_ne_nil_left h9

/-- A successful `t_schema` parse with actions enabled returns a nonempty
token list: the delimited field-schema list contributes at least one field. -/
theorem t_schema_true_ne_nil {fuel : Nat} {l : List Char} {i k : Nat} {t : List Tok}
    (h : t_schema fuel l i true = .ok k t) : t ≠ [] := by
  simp only [t_schema] at h
  obtain ⟨j1, a1, b1, -, h1, rfl⟩ := pseq_eq_ok h
  obtain ⟨j2, a2, b2, -, h2, rfl⟩ := pseq_eq_ok h1
  obtain ⟨j3, a3, b3, -, h3, rfl⟩ := pseq_eq_ok h2
  obtain ⟨j4, a4, b4, -, h4, rfl⟩ := pseq_eq_ok h3
  obtain ⟨j5, a5, b5, -, h5, rfl⟩ := pseq_eq_ok h4
  obtain ⟨j6, a6, b6, hlist, -, rfl⟩ := pseq_eq_ok h5
  obtain ⟨j7, c1, c2, hfs, -, rfl⟩ := pseq_eq_ok hlist
  have hc1 : c1 ≠ [] := t_fieldschema_true_ne_nil hfs
  apply append_ne_nil_right
  apply append_ne_nil_right
  apply append_ne_nil_right
  apply append_ne_nil_right
  apply append_ne_nil_right
  apply append_ne_nil_left
  exact append_ne_nil_left hc1

/-- C8 (confirmed): when no log line begins with the exact marker text,
`parse_schema` falls off its loop and returns the absent outcome `none` — not
an error and not an empty field sequence — and conversely every successful
parse result carries at least one token, so the absent outcome is
distinguishable from every success. -/
theorem C8_absent_outcome :
    (∀ logs : List String,
      (∀ l ∈ logs, ¬ (l.data.take marker.data.length = marker.data)) →
      parse_schema logs = none) ∧
    (∀ (logs : List String) (toks : List Tok),
      parse_schema logs = some (Except.ok toks) → toks ≠ []) := by
  constructor
  · intro logs
    induction logs with
    | nil => intro _; rfl
    | cons l ls ih =>
      intro h
      simp only [parse_schema]
      rw [if_neg (h l (List.mem_cons_self l ls))]
      exact ih (fun x hx => h x (List.mem_cons_of_mem l hx))
  · intro logs toks
    induction logs with
    | nil => intro h; exact absurd h (by simp [parse_schema])
    | cons l ls ih =>
      intro h
      simp only [parse_schema] at h
      by_cases hc : l.data.take marker.data.length = marker.data
      · rw [if_pos hc] at h
        injection h with h2
        simp only [parseString] at h2
        cases ht : t_schema ((String.mk (l.data.drop marker.data.length)).data.length + 1)
            ((String.mk (l.data.drop marker.data.length)).data) 0 true with
        | ok j t2 =>
          rw [ht] at h2
          injection h2 with h3
          rw [← h3]
          exact t_schema_true_ne_nil ht
        | fail => rw [ht] at h2; exact absurd h2 (by simp)
        | fatal e => rw [ht] at h2; exact absurd h2 (by simp)
      · rw [if_neg hc] at h
        exact ih h

theorem C8_witness :
    parse_schema ["foo", "bar INFO  : Returning Hive schema: x"] = none :=
  C8_absent_outcome.1 ["foo", "bar INFO  : Returning Hive schema: x"] (by decide)

/-! ### Step lemmas for running the grammar on a payload with a symbolic
field name (used to prove C1 for every valid label) -/

theorem data_append (a b : String) : (a ++ b).data = a.data ++ b.data := by
  cases a
  cases b
  rfl

theorem mk_data (s : String) : String.mk s.data = s := rfl

theorem drop_of_drop {l : List Char} {i n : Nat} {X rest : List Char}
    (h : l.drop i = X ++ rest) (hn : X.length = n) : l.drop (i + n) = rest := by
  subst hn
  rw [← List.drop_drop, h, List.drop_left]

theorem get_of_drop {l : List Char} {i : Nat} {c : Char} {rest : List Char}
    (h : l.drop i = c :: rest) : l[i]? = some c := by
  have h0 : (l.drop i)[0]? = l[i + 0]? := List.getElem?_drop l i 0
  rw [h] at h0
  simpa using h0.symm

theorem prevNonClass_of_get {cls : Char → Bool} {l : List Char} {i : Nat} {c : Char}
    (h : l[i]? = some c) : prevNonClass cls l (i + 1) = !(cls c) := by
  simp [prevNonClass, h]

theorem nextNonClass_of_get {cls : Char → Bool} {l : List Char} {j : Nat} {c : Char}
    (h : l[j]? = some c) : nextNonClass cls l j = !(cls c) := by
  simp [nextNonClass, h]

theorem nextNonClass_of_none {cls : Char → Bool} {l : List Char} {j : Nat}
    (h : l[j]? = none) : nextNonClass cls l j = true := by
  simp [nextNonClass, h]

theorem skipWs_eq {l : List Char} {i : Nat} {c : Char} {rest : List Char}
    (h : l.drop i = c :: rest) (hc : isWsChar c = false) : skipWs l i = i := by
  simp [skipWs, h, wsCount, hc]

theorem takeWhile_all_append {p : Char → Bool} {w rest : List Char}
    (hall : ∀ c ∈ w, p c = true)
    (hr : ∀ c rest2, rest = c :: rest2 → p c = false) :
    (w ++ rest).takeWhile p = w := by
  induction w with
  | nil =>
    cases rest with
    | nil => rfl
    | cons c r2 => simp [List.takeWhile_cons, hr c r2 rfl]
  | cons a w2 ih =>
    simp only [List.cons_append, List.takeWhile_cons,
      hall a (List.mem_cons_self a w2), if_true]
    rw [ih (fun c hc => hall c (List.mem_cons_of_mem a hc))]

/-- Run `pp.Keyword(kw)` on text that begins with exactly `kw`. -/
theorem kwP_ok {kw : String} {l : List Char} {i : Nat} {da : Bool} {rest : List Char}
    (hd : l.drop i = kw.data ++ rest)
    (hhead : ∃ c cs, kw.data = c :: cs ∧ isWsChar c = false)
    (hprev : prevNonClass identChar l i = true)
    (hnext : nextNonClass identChar l (i + kw.data.length) = true) :
    kwP kw l i da = .ok (i + kw.data.length) [Tok.str kw] := by
  obtain ⟨c, cs, hkw, hws⟩ := hhead
  have hdc : l.drop i = c :: (cs ++ rest) := by
    rw [hd, hkw]
    rfl
  have hskip : skipWs l i = i := skipWs_eq hdc hws
  simp only [kwP, hskip]
  rw [if_pos]
  refine ⟨?_, hprev, hnext⟩
  rw [hd, List.take_left]

/-- Run a `pp.Literal` (the suppressed punctuation) on text that begins with
exactly its text. -/
theorem litP_ok {s : String} {l : List Char} {i : Nat} {da : Bool} {rest : List Char}
    (hd : l.drop i = s.data ++ rest)
    (hhead : ∃ c cs, s.data = c :: cs ∧ isWsChar c = false) :
    litP s l i da = .ok (i + s.data.length) [Tok.str s] := by
  obtain ⟨c, cs, hkw, hws⟩ := hhead
  have hdc : l.drop i = c :: (cs ++ rest) := by
    rw [hd, hkw]
    rfl
  have hskip : skipWs l i = i := skipWs_eq hdc hws
  simp only [litP, hskip]
  rw [if_pos]
  rw [hd, List.take_left]

/-- A one-character `pp.Literal` fails when the character at the position
differs. -/
theorem litP_fail_one {s : String} {ch : Char} (hs : s.data = [ch])
    {l : List Char} {i : Nat} {da : Bool} {c0 : Char} {rest : List Char}
    (hd : l.drop i = c0 :: rest) (hws : isWsChar c0 = false) (hne : c0 ≠ ch) :
    litP s l i da = .fail := by
  have hskip : skipWs l i = i := skipWs_eq hd hws
  simp only [litP, hskip]
  rw [if_neg]
  rw [hd, hs]
  simp [hne]

theorem suppressP_fail {p : Parser} {l : List Char} {i : Nat} {da : Bool}
    (hp : p l i da = .fail) : suppressP p l i da = .fail := by
  simp [suppressP, hp]

/-- Run `one_of` on text whose maximal word is `w`, a member of the symbol
set already in canonical lowercase. -/
theorem oneOfKwP_ok {syms : List String} {l : List Char} {i : Nat} {da : Bool}
    {w rest : List Char}
    (hd : l.drop i = w ++ rest)
    (hne : w ≠ [])
    (hall : ∀ c ∈ w, wordChar c = true)
    (hrest : ∀ c rest2, rest = c :: rest2 → wordChar c = false)
    (hprev : prevNonClass wordChar l i = true)
    (hmem : lowerStr w ∈ syms.map (·.data))
    (hlow : lowerStr w = w) :
    oneOfKwP syms l i da = .ok (i + w.length) [Tok.str (String.mk w)] := by
  obtain ⟨c, cs, hkw⟩ : ∃ c cs, w = c :: cs := by
    cases w with
    | nil => exact absurd rfl hne
    | cons c cs => exact ⟨c, cs, rfl⟩
  have hcw : isWsChar c = false := by
    have h1 : wordChar c = true := hall c (by rw [hkw]; exact List.mem_cons_self c cs)
    cases hic : isWsChar c
    · rfl
    · exfalso
      have : (c = ' ' ∨ c = '\n') ∨ c = '\t' := by
        simpa [isWsChar, Bool.or_eq_true, decide_eq_true_eq] using hic
      rcases this with (rfl | rfl) | rfl <;> revert h1 <;> decide
  have hdc2 : l.drop i = c :: (cs ++ rest) := by
    rw [hd, hkw]
    rfl
  have hskip : skipWs l i = i := skipWs_eq hdc2 hcw
  have htw : (l.drop i).takeWhile wordChar = w := by
    rw [hd]
    exact takeWhile_all_append hall hrest
  simp only [oneOfKwP, hskip, htw]
  rw [if_pos ⟨hne, hprev, hmem⟩, hlow, ite_self]

/-- `one_of` fails when the maximal word at the position is not in the set. -/
theorem oneOfKwP_fail_mem {syms : List String} {l : List Char} {i : Nat} {da : Bool}
    {w rest : List Char}
    (hd : l.drop i = w ++ rest)
    (hall : ∀ c ∈ w, wordChar c = true)
    (hrest : ∀ c rest2, rest = c :: rest2 → wordChar c = false)
    (hnws : ∀ c rest2, w ++ rest = c :: rest2 → isWsChar c = false)
    (hmem : lowerStr w ∉ syms.map (·.data)) :
    oneOfKwP syms l i da = .fail := by
  have hskip : skipWs l i = i := by
    cases hwr : w ++ rest with
    | nil => simp [skipWs, hd, hwr, wsCount]
    | cons c r2 => exact skipWs_eq (by rw [hd, hwr]) (hnws c r2 hwr)
  have htw : (l.drop i).takeWhile wordChar = w := by
    rw [hd]
    exact takeWhile_all_append hall hrest
  simp only [oneOfKwP, hskip, htw]
  rw [if_neg]
  rintro ⟨-, -, hm⟩
  exact hmem hm

/-- Run `pp.Word` on text that begins with the word `c0 :: body` followed by a
character outside the body class. -/
theorem wordP_ok {initCls bodyCls : Char → Bool} {l : List Char} {i : Nat} {da : Bool}
    {c0 : Char} {body rest : List Char} {nn : Nat}
    (hd : l.drop i = (c0 :: body) ++ rest)
    (hws : isWsChar c0 = false)
    (hinit : initCls c0 = true)
    (hbody : ∀ c ∈ body, bodyCls c = true)
    (hrest : ∀ c rest2, rest = c :: rest2 → bodyCls c = false)
    (hn : (c0 :: body).length = nn) :
    wordP initCls bodyCls l i da = .ok (i + nn) [Tok.str (String.mk (c0 :: body))] := by
  have hdc : l.drop i = c0 :: (body ++ rest) := by
    rw [hd]
    rfl
  have hskip : skipWs l i = i := skipWs_eq hdc hws
  simp only [wordP, hskip, hdc, hinit, if_true]
  rw [takeWhile_all_append hbody hrest]
  have : i + 1 + body.length = i + nn := by
    subst hn
    simp [List.length_cons]
    omega
  rw [this]

theorem get_of_drop_lit {l : List Char} {i : Nat} {s : String} {rest : List Char}
    {c : Char} {cs : List Char}
    (h : l.drop i = s.data ++ rest) (hs : s.data = c :: cs) : l[i]? = some c := by
  have hdc : l.drop i = c :: (cs ++ rest) := by
    rw [h, hs]
    rfl
  exact get_of_drop hdc

theorem get_of_drop_lit2 {l : List Char} {i : Nat} {s : String}
    {c : Char} {cs : List Char}
    (h : l.drop i = s.data) (hs : s.data = c :: cs) : l[i]? = some c := by
  have hdc : l.drop i = c :: cs := by rw [h, hs]
  exact get_of_drop hdc

theorem cons_of_lit {l : List Char} {i : Nat} {s : String} {rest : List Char}
    {c : Char} {cs : List Char}
    (h : l.drop i = s.data ++ rest) (hs : s.data = c :: cs) :
    l.drop i = c :: (cs ++ rest) := by
  rw [h, hs]
  rfl

theorem prev_true_of_get {cls : Char → Bool} {l : List Char} {i : Nat} {c : Char}
    (h : l[i]? = some c) (hc : cls c = false) :
    prevNonClass cls l (i + 1) = true := by
  rw [prevNonClass_of_get h, hc]
  rfl

theorem next_true_of_get {cls : Char → Bool} {l : List Char} {j : Nat} {c : Char}
    (h : l[j]? = some c) (hc : cls c = false) :
    nextNonClass cls l j = true := by
  rw [nextNonClass_of_get h, hc]
  rfl

/-- A label is valid when it matches `Word(alphas + "_", alphanums + "_")`
exactly as `t_label` does. -/
def validLabel (n : String) : Bool :=
  match n.data with
  | [] => false
  | c :: rest => (c.isAlpha || c = '_') && rest.all (fun x => x.isAlphanum || x = '_')

theorem labelInit_not_ws {c : Char} (h : (c.isAlpha || c = '_') = true) :
    isWsChar c = false := by
  cases hw : isWsChar c
  · rfl
  · exfalso
    have hws : (c = ' ' ∨ c = '\n') ∨ c = '\t' := by
      simpa [isWsChar, Bool.or_eq_true, decide_eq_true_eq] using hw
    rcases hws with (rfl | rfl) | rfl <;> revert h <;> decide

/-- At a position whose text reads `bigint` followed by a non-word character,
the top-level type rule matches exactly the keyword and, with actions on,
builds `int64`: the parameterized and complex alternatives all fail here, and
`t_interval` does not match. -/
theorem t_top_type_bigint {l : List Char} {i : Nat} {R : List Char} (F : Nat)
    (hd : l.drop i = "bigint".data ++ R)
    (hrest : ∀ c R2, R = c :: R2 → wordChar c = false)
    (hprev : prevNonClass wordChar l i = true) :
    t_top_type (Nat.succ F) l i true =
      PResult.ok (i + "bigint".data.length) [Tok.typ ArrowType.int64] := by
  have hdc : l.drop i = 'b' :: ("igint".data ++ R) := cons_of_lit hd rfl
  have hskip : skipWs l i = i := skipWs_eq hdc (by decide)
  have hhead : (l.drop (skipWs l i)).head? = some 'b' := by
    rw [hskip, hdc]
    rfl
  have hnws : ∀ c r2, "bigint".data ++ R = c :: r2 → isWsChar c = false := by
    intro c r2 h
    rw [show "bigint".data ++ R = 'b' :: ("igint".data ++ R) from rfl] at h
    cases h
    decide
  have hallw : ∀ c ∈ "bigint".data, wordChar c = true := by decide
  have hbasic : ∀ da, t_basic l i da =
      PResult.ok (i + "bigint".data.length) [Tok.str "bigint"] := by
    intro da
    have h := @oneOfKwP_ok ["tinyint", "smallint", "int", "bigint", "float",
      "double", "boolean", "string", "binary", "timestamp", "date", "decimal"]
      l i da ("bigint".data) R hd (by decide) hallw hrest hprev (by decide) (by decide)
    simpa [t_basic] using h
  have hchar : ∀ da, t_char l i da = .fail := by
    intro da
    simp only [t_char]
    exact pseq_fail_left (oneOfKwP_fail_mem hd hallw hrest hnws (by decide))
  have hdec : ∀ da, t_decimal l i da = .fail := by
    intro da
    simp only [t_decimal]
    exact pseq_fail_left (caselessKwP_fail_of_head "decimal" hhead
      ⟨'d', _, rfl, by decide⟩)
  have harr : ∀ (tt : Parser) da, t_array tt l i da = .fail := by
    intro tt da
    simp only [t_array]
    exact pseq_fail_left (caselessKwP_fail_of_head "array" hhead
      ⟨'a', _, rfl, by decide⟩)
  have hmap : ∀ (tt : Parser) da, t_map tt l i da = .fail := by
    intro tt da
    simp only [t_map]
    exact pseq_fail_left (caselessKwP_fail_of_head "map" hhead
      ⟨'m', _, rfl, by decide⟩)
  have hstru : ∀ (tt : Parser) f da, t_struct tt f l i da = .fail := by
    intro tt f da
    simp only [t_struct]
    exact pseq_fail_left (caselessKwP_fail_of_head "struct" hhead
      ⟨'s', _, rfl, by decide⟩)
  have hprimRaw : ∀ da, por (por t_basic t_char) t_decimal l i da =
      PResult.ok (i + "bigint".data.length) [Tok.str "bigint"] := by
    intro da
    have hinner : ∀ da2, por t_basic t_char l i da2 = t_basic l i da2 :=
      fun da2 => por_right_fail (hbasic false) (hchar false)
    have hinnerF : por t_basic t_char l i false =
        PResult.ok (i + "bigint".data.length) [Tok.str "bigint"] := by
      rw [hinner false]
      exact hbasic false
    rw [por_right_fail hinnerF (hdec false), hinner da]
    exact hbasic da
  have hprimT : t_primitive l i true =
      PResult.ok (i + "bigint".data.length) [Tok.typ ArrowType.int64] := by
    simp only [t_primitive]
    exact withAction_ok_true (hprimRaw true) rfl
  have hprimF : t_primitive l i false =
      PResult.ok (i + "bigint".data.length) [Tok.str "bigint"] := by
    simp only [t_primitive]
    exact withAction_false (hprimRaw false)
  have hcomplex : ∀ (tt : Parser) f da, t_complex tt f l i da = .fail := by
    intro tt f da
    simp only [t_complex]
    apply withAction_fail
    have hinner : por (t_array tt) (t_map tt) l i false = .fail :=
      por_fail (harr tt false) (hmap tt false)
    exact por_fail hinner (hstru tt f false)
  have htype : ∀ da, t_type (Nat.succ F) l i da = t_primitive l i da := by
    intro da
    simp only [t_type]
    exact por_right_fail hprimF (hcomplex (t_type F) F false)
  have hint : ∀ da, t_interval l i da = .fail := by
    intro da
    simp only [t_interval]
    exact oneOfKwP_fail_mem hd hallw hrest hnws (by decide)
  simp only [t_top_type]
  have hTF : t_type (Nat.succ F) l i false =
      PResult.ok (i + "bigint".data.length) [Tok.str "bigint"] := by
    rw [htype false]
    exact hprimF
  rw [por_right_fail hTF (hint false), htype true]
  exact hprimT

theorem pseq_ok_sup {p q : Parser} {l : List Char} {i j k : Nat} {da : Bool}
    {t2 : List Tok} (hp : p l i da = .ok j []) (hq : q l j da = .ok k t2) :
    pseq p q l i da = .ok k t2 := by
  simpa using pseq_ok_of hp hq

theorem pseq_ok_nilr {p q : Parser} {l : List Char} {i j k : Nat} {da : Bool}
    {t1 : List Tok} (hp : p l i da = .ok j t1) (hq : q l j da = .ok k []) :
    pseq p q l i da = .ok k t1 := by
  simpa using pseq_ok_of hp hq

/-- Running `t_schema` with actions on a one-field payload whose field name is
any valid label and whose type text is `bigint` succeeds and returns exactly
one token: the bare `int64` type.  The label is matched and suppressed. -/
theorem t_schema_bigint_run (n : String) (hv : validLabel n = true) (F : Nat)
    {l : List Char}
    (hl : l = "Schema(fieldSchemas:[FieldSchema(name:".data ++
      (n.data ++ ",type:bigint,comment:null)],properties:null)".data)) :
    ∃ P, t_schema (Nat.succ F) l 0 true = PResult.ok P [Tok.typ ArrowType.int64] := by
  cases hnd : n.data with
  | nil => simp [validLabel, hnd] at hv
  | cons c0 body =>
  simp only [validLabel, hnd, Bool.and_eq_true] at hv
  obtain ⟨hinit, hall⟩ := hv
  have hallm : ∀ c ∈ body, (c.isAlphanum || c = '_') = true := by
    intro c hc
    exact List.all_eq_true.mp hall c hc
  have h0 : l.drop 0 = "Schema".data ++
      ("(fieldSchemas:[FieldSchema(name:".data ++
        (n.data ++ ",type:bigint,comment:null)],properties:null)".data)) := by
    rw [List.drop_zero, hl,
      show ("Schema(fieldSchemas:[FieldSchema(name:" : String).data =
        "Schema".data ++ "(fieldSchemas:[FieldSchema(name:".data from by decide,
      List.append_assoc]
  -- 1: Keyword "Schema" (suppressed)
  have h1 := drop_of_drop h0 rfl
  have s1 : suppressP (kwP "Schema") l 0 true = PResult.ok _ [] :=
    suppressP_ok_of (kwP_ok h0 ⟨'S', _, rfl, by decide⟩ rfl
      (next_true_of_get (get_of_drop_lit h1 rfl) (by decide)))
  rw [show ("(fieldSchemas:[FieldSchema(name:" : String).data =
    "(".data ++ "fieldSchemas:[FieldSchema(name:".data from by decide,
    List.append_assoc] at h1
  -- 2: "("
  have h2 := drop_of_drop h1 rfl
  have s2 : suppressP (litP "(") l _ true = PResult.ok _ [] :=
    suppressP_ok_of (litP_ok h1 ⟨'(', _, rfl, by decide⟩)
  rw [show ("fieldSchemas:[FieldSchema(name:" : String).data =
    "fieldSchemas".data ++ ":[FieldSchema(name:".data from by decide,
    List.append_assoc] at h2
  -- 3: Keyword "fieldSchemas"
  have h3 := drop_of_drop h2 rfl
  have s3 : suppressP (kwP "fieldSchemas") l _ true = PResult.ok _ [] :=
    suppressP_ok_of (kwP_ok h2 ⟨'f', _, rfl, by decide⟩
      (prev_true_of_get (get_of_drop_lit h1 rfl) (by decide))
      (next_true_of_get (get_of_drop_lit h3 rfl) (by decide)))
  rw [show (":[FieldSchema(name:" : String).data =
    ":".data ++ "[FieldSchema(name:".data from by decide,
    List.append_assoc] at h3
  -- 4: ":"
  have h4 := drop_of_drop h3 rfl
  have s4 : suppressP (litP ":") l _ true = PResult.ok _ [] :=
    suppressP_ok_of (litP_ok h3 ⟨':', _, rfl, by decide⟩)
  rw [show ("[FieldSchema(name:" : String).data =
    "[".data ++ "FieldSchema(name:".data from by decide,
    List.append_assoc] at h4
  -- 5: "["
  have h5 := drop_of_drop h4 rfl
  have s5 : suppressP (litP "[") l _ true = PResult.ok _ [] :=
    suppressP_ok_of (litP_ok h4 ⟨'[', _, rfl, by decide⟩)
  rw [show ("FieldSchema(name:" : String).data =
    "FieldSchema".data ++ "(name:".data from by decide,
    List.append_assoc] at h5
  -- 6: Keyword "FieldSchema"
  have h6 := drop_of_drop h5 rfl
  have s6 : suppressP (kwP "FieldSchema") l _ true = PResult.ok _ [] :=
    suppressP_ok_of (kwP_ok h5 ⟨'F', _, rfl, by decide⟩
      (prev_true_of_get (get_of_drop_lit h4 rfl) (by decide))
      (next_true_of_get (get_of_drop_lit h6 rfl) (by decide)))
  rw [show ("(name:" : String).data = "(".data ++ "name:".data from by decide,
    List.append_assoc] at h6
  -- 7: "("
  have h7 := drop_of_drop h6 rfl
  have s7 : suppressP (litP "(") l _ true = PResult.ok _ [] :=
    suppressP_ok_of (litP_ok h6 ⟨'(', _, rfl, by decide⟩)
  rw [show ("name:" : String).data = "name".data ++ ":".data from by decide,
    List.append_assoc] at h7
  -- 8: Keyword "name"
  have h8 := drop_of_drop h7 rfl
  have s8 : suppressP (kwP "name") l _ true = PResult.ok _ [] :=
    suppressP_ok_of (kwP_ok h7 ⟨'n', _, rfl, by decide⟩
      (prev_true_of_get (get_of_drop_lit h6 rfl) (by decide))
      (next_true_of_get (get_of_drop_lit h8 rfl) (by decide)))
  -- 9: ":" right before the field name
  have h9 := drop_of_drop h8 rfl
  have s9 : suppressP (litP ":") l _ true = PResult.ok _ [] :=
    suppressP_ok_of (litP_ok h8 ⟨':', _, rfl, by decide⟩)
  -- 10: the field name itself, `Word` then suppressed
  rw [hnd] at h9
  have h10 := drop_of_drop h9
    (show (c0 :: body).length = n.data.length by rw [hnd])
  have s10 : suppressP (wordP (fun c => c.isAlpha || c = '_')
      (fun c => c.isAlphanum || c = '_')) l _ true = PResult.ok _ [] :=
    suppressP_ok_of (wordP_ok h9 (labelInit_not_ws hinit) hinit hallm
      (by
        intro c r2 hR
        rw [show (",type:bigint,comment:null)],properties:null)" : String).data =
          ',' :: "type:bigint,comment:null)],properties:null)".data from rfl] at hR
        cases hR
        decide)
      (show (c0 :: body).length = n.data.length by rw [hnd]))
  rw [show (",type:bigint,comment:null)],properties:null)" : String).data =
    ",".data ++ "type:bigint,comment:null)],properties:null)".data from by decide] at h10
  -- 11: ","
  have h11 := drop_of_drop h10 rfl
  have s11 : suppressP (litP ",") l _ true = PResult.ok _ [] :=
    suppressP_ok_of (litP_ok h10 ⟨',', _, rfl, by decide⟩)
  rw [show ("type:bigint,comment:null)],properties:null)" : String).data =
    "type".data ++ ":bigint,comment:null)],properties:null)".data from by decide] at h11
  -- 12: Keyword "type"
  have h12 := drop_of_drop h11 rfl
  have s12 : suppressP (kwP "type") l _ true = PResult.ok _ [] :=
    suppressP_ok_of (kwP_ok h11 ⟨'t', _, rfl, by decide⟩
      (prev_true_of_get (get_of_drop_lit h10 rfl) (by decide))
      (next_true_of_get (get_of_drop_lit2 h12 rfl) (by decide)))
  rw [show (":bigint,comment:null)],properties:null)" : String).data =
    ":".data ++ "bigint,comment:null)],properties:null)".data from by decide] at h12
  -- 13: ":"
  have h13 := drop_of_drop h12 rfl
  have s13 : suppressP (litP ":") l _ true = PResult.ok _ [] :=
    suppressP_ok_of (litP_ok h12 ⟨':', _, rfl, by decide⟩)
  rw [show ("bigint,comment:null)],properties:null)" : String).data =
    "bigint".data ++ ",comment:null)],properties:null)".data from by decide] at h13
  -- 14: the type text `bigint` through the full top-level type rule
  have h14 := drop_of_drop h13 rfl
  have s14 : t_top_type (Nat.succ F) l _ true =
      PResult.ok _ [Tok.typ ArrowType.int64] :=
    t_top_type_bigint F h13
      (by
        intro c r2 hR
        rw [show (",comment:null)],properties:null)" : String).data =
          ',' :: "comment:null)],properties:null)".data from rfl] at hR
        cases hR
        decide)
      (prev_true_of_get (get_of_drop_lit h12 rfl) (by decide))
  rw [show (",comment:null)],properties:null)" : String).data =
    ",".data ++ "comment:null)],properties:null)".data from by decide] at h14
  -- 15: ","
  have h15 := drop_of_drop h14 rfl
  have s15 : suppressP (litP ",") l _ true = PResult.ok _ [] :=
    suppressP_ok_of (litP_ok h14 ⟨',', _, rfl, by decide⟩)
  rw [show ("comment:null)],properties:null)" : String).data =
    "comment".data ++ ":null)],properties:null)".data from by decide] at h15
  -- 16: Keyword "comment"
  have h16 := drop_of_drop h15 rfl
  have s16 : suppressP (kwP "comment") l _ true = PResult.ok _ [] :=
    suppressP_ok_of (kwP_ok h15 ⟨'c', _, rfl, by decide⟩
      (prev_true_of_get (get_of_drop_lit h14 rfl) (by decide))
      (next_true_of_get (get_of_drop_lit2 h16 rfl) (by decide)))
  rw [show (":null)],properties:null)" : String).data =
    ":".data ++ "null)],properties:null)".data from by decide] at h16
  -- 17: ":"
  have h17 := drop_of_drop h16 rfl
  have s17 : suppressP (litP ":") l _ true = PResult.ok _ [] :=
    suppressP_ok_of (litP_ok h16 ⟨':', _, rfl, by decide⟩)
  rw [show ("null)],properties:null)" : String).data =
    "null".data ++ ")],properties:null)".data from by decide] at h17
  -- 18: Keyword "null"
  have h18 := drop_of_drop h17 rfl
  have s18 : suppressP (kwP "null") l _ true = PResult.ok _ [] :=
    suppressP_ok_of (kwP_ok h17 ⟨'n', _, rfl, by decide⟩
      (prev_true_of_get (get_of_drop_lit h16 rfl) (by decide))
      (next_true_of_get (get_of_drop_lit2 h18 rfl) (by decide)))
  rw [show (")],properties:null)" : String).data =
    ")".data ++ "],properties:null)".data from by decide] at h18
  -- 19: ")" closing the FieldSchema
  have h19 := drop_of_drop h18 rfl
  have s19 : suppressP (litP ")") l _ true = PResult.ok _ [] :=
    suppressP_ok_of (litP_ok h18 ⟨')', _, rfl, by decide⟩)
  rw [show ("],properties:null)" : String).data =
    "]".data ++ ",properties:null)".data from by decide] at h19
  -- 20: the delimited list stops: no ",", next char is "]"
  have hfail20 : litP "," l _ true = PResult.fail :=
    litP_fail_one rfl (cons_of_lit h19 rfl) (by decide) (by decide)
  -- 21: "]"
  have h21 := drop_of_drop h19 rfl
  have s21 : suppressP (litP "]") l _ true = PResult.ok _ [] :=
    suppressP_ok_of (litP_ok h19 ⟨']', _, rfl, by decide⟩)
  rw [show (",properties:null)" : String).data =
    ",".data ++ "properties:null)".data from by decide] at h21
  -- 22: ","
  have h22 := drop_of_drop h21 rfl
  have s22 : suppressP (litP ",") l _ true = PResult.ok _ [] :=
    suppressP_ok_of (litP_ok h21 ⟨',', _, rfl, by decide⟩)
  rw [show ("properties:null)" : String).data =
    "properties".data ++ ":null)".data from by decide] at h22
  -- 23: Keyword "properties"
  have h23 := drop_of_drop h22 rfl
  have s23 : suppressP (kwP "properties") l _ true = PResult.ok _ [] :=
    suppressP_ok_of (kwP_ok h22 ⟨'p', _, rfl, by decide⟩
      (prev_true_of_get (get_of_drop_lit h21 rfl) (by decide))
      (next_true_of_get (get_of_drop_lit2 h23 rfl) (by decide)))
  rw [show (":null)" : String).data = ":".data ++ "null)".data from by decide] at h23
  -- 24: ":"
  have h24 := drop_of_drop h23 rfl
  have s24 : suppressP (litP ":") l _ true = PResult.ok _ [] :=
    suppressP_ok_of (litP_ok h23 ⟨':', _, rfl, by decide⟩)
  rw [show ("null)" : String).data = "null".data ++ ")".data from by decide] at h24
  -- 25: Keyword "null"
  have h25 := drop_of_drop h24 rfl
  have s25 : suppressP (kwP "null") l _ true = PResult.ok _ [] :=
    suppressP_ok_of (kwP_ok h24 ⟨'n', _, rfl, by decide⟩
      (prev_true_of_get (get_of_drop_lit h23 rfl) (by decide))
      (next_true_of_get (get_of_drop_lit2 h25 rfl) (by decide)))
  rw [show (")" : String).data = ")".data ++ ([] : List Char) from by decide] at h25
  -- 26: final ")"
  have s26 : suppressP (litP ")") l _ true = PResult.ok _ [] :=
    suppressP_ok_of (litP_ok h25 ⟨')', _, rfl, by decide⟩)
  -- assemble
  have s20 : zeroOrMore (pseq (suppressP (litP ",")) (t_fieldschema (Nat.succ F)))
      (Nat.succ F) l _ true = PResult.ok _ [] :=
    zeroOrMore_of_fail (pseq_fail_left (suppressP_fail hfail20)) (Nat.succ F)
  have hfinal := pseq_ok_sup s1 (pseq_ok_sup s2 (pseq_ok_sup s3 (pseq_ok_sup s4
    (pseq_ok_sup s5 (pseq_ok_nilr (pseq_ok_nilr
      (pseq_ok_sup s6 (pseq_ok_sup s7 (pseq_ok_sup s8 (pseq_ok_sup s9
        (pseq_ok_sup s10 (pseq_ok_sup s11 (pseq_ok_sup s12 (pseq_ok_sup s13
          (pseq_ok_nilr s14 (pseq_ok_sup s15 (pseq_ok_sup s16 (pseq_ok_sup s17
            (pseq_ok_sup s18 s19)))))))))))))
      s20)
      (pseq_ok_sup s21 (pseq_ok_sup s22 (pseq_ok_sup s23 (pseq_ok_sup s24
        (pseq_ok_sup s25 s26))))))))))
  exact ⟨_, hfinal⟩

/-- C1 (corrected): for every line carrying the marker and a well-formed
one-field schema payload (any valid label as the field name, type `bigint`),
`parse_schema` returns a sequence of bare Type values: the declared field name
is matched by the grammar but suppressed (`t_label.suppress()` in
`t_fieldschema`), so the result is `[int64]`, not `[Field("id", int64)]`. -/
theorem C1_names_suppressed :
    (∀ name : String, validLabel name = true →
      parse_schema [marker ++ payload name "bigint"] =
        some (Except.ok [Tok.typ ArrowType.int64])) ∧
    parse_schema [logLine "id" "bigint"] ≠
      some (Except.ok [Tok.field "id" ArrowType.int64]) := by
  constructor
  · intro n hv
    have hline : (marker ++ payload n "bigint").data =
        marker.data ++ (payload n "bigint").data := data_append _ _
    simp only [parse_schema]
    rw [if_pos (by rw [hline, List.take_left])]
    rw [show (marker ++ payload n "bigint").data.drop marker.data.length =
      (payload n "bigint").data from by rw [hline, List.drop_left]]
    rw [mk_data]
    simp only [parseString]
    have hstruct : (payload n "bigint").data =
        "Schema(fieldSchemas:[FieldSchema(name:".data ++
          (n.data ++ ",type:bigint,comment:null)],properties:null)".data) := by
      simp only [payload, data_append, List.append_assoc]
      rw [show ((",type:" : String).data ++ (("bigint" : String).data ++
        (",comment:null)],properties:null)" : String).data) : List Char) =
        (",type:bigint,comment:null)],properties:null)" : String).data
        from by decide]
    obtain ⟨P, hP⟩ := t_schema_bigint_run n hv ((payload n "bigint").data.length)
      hstruct
    rw [show (payload n "bigint").data.length + 1 =
      Nat.succ ((payload n "bigint").data.length) from rfl]
    rw [hP]
  · decide

/-- C1 counterexample: at the concrete log line with field name `id` and type
`bigint`, `parse_schema` returns the bare type list `[int64]`, not the claimed
ordered sequence of named Field values `[Field("id", int64)]`. -/
theorem C1_counterexample :
    parse_schema [logLine "id" "bigint"] = some (Except.ok [Tok.typ ArrowType.int64]) ∧
    parse_schema [logLine "id" "bigint"] ≠
      some (Except.ok [Tok.field "id" ArrowType.int64]) := by
  exact ⟨rfl, by decide⟩

theorem C1_witness :
    validLabel "id" = true ∧
    parse_schema [marker ++ payload "id" "bigint"] =
      some (Except.ok [Tok.typ ArrowType.int64]) :=
  ⟨rfl, C1_names_suppressed.1 "id" rfl⟩

end PyHive
